import Mathlib

/-!
# CertQuest — verification of the gameplay state machine and scoring model

Shallow embedding of the core of the CertQuest engine
(`engine/player.py`, `engine/game.py`, `engine/theme_manager.py`).
Python dictionaries with optional fields are modelled with `Option`,
Python `dict`s with association lists, and Python integers with `Int`.
Mutating methods become state-passing functions returning the new state
together with the method's return value.
-/

namespace CertQuest

/-! ## Player (engine/player.py) -/

/-- One entry of `domain_stats`: the per-domain `{"correct": _, "wrong": _}`
counter dictionary. -/
structure DomainStat where
  correct : Int
  wrong : Int
deriving Repr, DecidableEq

/-- One entry of the `_titles` configuration list.  In the source each entry
is a dict read with `.get`, so every field is optional. -/
structure TitleDef where
  threshold : Option Int
  fantasy : Option String
  title : Option String
deriving Repr, DecidableEq

/-- `title_def.get('threshold', 0)`. -/
def TitleDef.thresholdD (t : TitleDef) : Int := t.threshold.getD 0

/-- `title_def.get('fantasy', title_def.get('title', 'Unknown'))`. -/
def TitleDef.displayName (t : TitleDef) : String :=
  t.fantasy.getD (t.title.getD "Unknown")

/-- `sorted(self._titles, key=lambda t: t.get('threshold', 0))`: a stable
sort by threshold (insertion sort is stable, matching Python's `sorted`). -/
def sortTitles (ts : List TitleDef) : List TitleDef :=
  ts.insertionSort (fun a b => a.thresholdD ≤ b.thresholdD)

/-- The loop body of `Player.title`: scan the sorted threshold table,
keeping the display name of the last entry whose threshold is ≤ xp,
starting from `"Novice"`. -/
def computeTitle (titles : List TitleDef) (xp : Int) : String :=
  (sortTitles titles).foldl
    (fun cur td => if td.thresholdD ≤ xp then td.displayName else cur)
    "Novice"

/-- The same scan as `computeTitle`, but recording the threshold of the
selected entry instead of its display name; `none` when xp is below every
threshold (the `"Novice"` default case). -/
def selectedThreshold (titles : List TitleDef) (xp : Int) : Option Int :=
  (sortTitles titles).foldl
    (fun cur td => if td.thresholdD ≤ xp then some td.thresholdD else cur)
    none

/-- The `Player` dataclass.  `domain_stats` is an association list standing
for the Python dict (keys unique, insertion order preserved). -/
structure Player where
  name : String
  hp : Int
  max_hp : Int
  xp : Int
  current_domain : Int
  scenarios_completed : List String
  wrong_answers : Int
  correct_answers : Int
  domain_stats : List (Int × DomainStat)
  _domain_count : Int
  _titles : List TitleDef
  _max_xp : Int
deriving Repr, DecidableEq

/-- The `title` property: `Player.title` in the source. -/
def Player.title (p : Player) : String := computeTitle p._titles p.xp

/-- The guard `if domain and domain in self.domain_stats` shared by
`take_damage` and `gain_xp`.  `domain` is `None` or an `int`; Python
truthiness makes both `None` and `0` fail the first conjunct. -/
def domainTracked (domain : Option Int) (stats : List (Int × DomainStat)) : Bool :=
  match domain with
  | none => false
  | some d => if d = 0 then false else (stats.lookup d).isSome

/-- `self.domain_stats[domain]["wrong"] += 1` on the association list
(dict keys are unique, so at most one entry matches). -/
def bumpWrong (stats : List (Int × DomainStat)) (d : Int) : List (Int × DomainStat) :=
  stats.map (fun kv => if kv.1 = d then (kv.1, { kv.2 with wrong := kv.2.wrong + 1 }) else kv)

/-- `self.domain_stats[domain]["correct"] += 1` on the association list. -/
def bumpCorrect (stats : List (Int × DomainStat)) (d : Int) : List (Int × DomainStat) :=
  stats.map (fun kv => if kv.1 = d then (kv.1, { kv.2 with correct := kv.2.correct + 1 }) else kv)

/-- `Player.take_damage(amount, domain)`: subtract from hp (may go
negative), count the wrong answer, bump the per-domain counter when the
domain is tracked, return `amount`. -/
def Player.take_damage (p : Player) (amount : Int) (domain : Option Int) :
    Player × Int :=
  let p1 := { p with hp := p.hp - amount, wrong_answers := p.wrong_answers + 1 }
  let p2 :=
    if domainTracked domain p1.domain_stats then
      { p1 with domain_stats := bumpWrong p1.domain_stats (domain.getD 0) }
    else p1
  (p2, amount)

/-- `Player.gain_xp(amount, domain)`: add xp, count the correct answer,
bump the per-domain counter when tracked, and return whether the derived
title changed across the call. -/
def Player.gain_xp (p : Player) (amount : Int) (domain : Option Int) :
    Player × Bool :=
  let old_title := p.title
  let p1 := { p with xp := p.xp + amount, correct_answers := p.correct_answers + 1 }
  let p2 :=
    if domainTracked domain p1.domain_stats then
      { p1 with domain_stats := bumpCorrect p1.domain_stats (domain.getD 0) }
    else p1
  let new_title := p2.title
  (p2, decide (old_title ≠ new_title))

/-- `Player.heal(amount)`:
`actual_heal = min(self.max_hp - self.hp, amount); self.hp += actual_heal`. -/
def Player.heal (p : Player) (amount : Int) : Player × Int :=
  let actual_heal := min (p.max_hp - p.hp) amount
  ({ p with hp := p.hp + actual_heal }, actual_heal)

/-- `Player.complete_scenario(id)`: append the id unless already present. -/
def Player.complete_scenario (p : Player) (scenario_id : String) : Player :=
  if scenario_id ∈ p.scenarios_completed then p
  else { p with scenarios_completed := p.scenarios_completed ++ [scenario_id] }

/-- A finite sequence of `heal` calls, applied left to right. -/
def Player.healSeq (p : Player) (amounts : List Int) : Player :=
  amounts.foldl (fun q a => (q.heal a).1) p

/-! ## Scenario (engine/game.py) -/

/-- A choice entry inside a themed content block: either a plain string or
a dict carrying the text and an optional per-choice `failure_reason`. -/
inductive ChoiceEntry where
  | str : String → ChoiceEntry
  | dict : Option String → Option String → ChoiceEntry
deriving Repr, DecidableEq

/-- The `isinstance(choice, dict) and choice.get('failure_reason')` test:
`some r` exactly when the entry is a dict whose `failure_reason` value is
truthy (present and non-empty).  The second component of `dict` is the
`failure_reason` field. -/
def ChoiceEntry.truthyFailureReason : ChoiceEntry → Option String
  | .str _ => none
  | .dict _ r => match r with
      | some s => if s = "" then none else some s
      | none => none

/-- A YAML dict key, which in the loaded `failure_texts` mapping may be an
int or its string spelling. -/
inductive PyKey where
  | int : Int → PyKey
  | str : String → PyKey
deriving Repr, DecidableEq

/-- One theme's content block.  Fields read with `.get` in the source are
optional here as well. -/
structure ThemedContent where
  title : Option String
  narrative : Option String
  choices : List ChoiceEntry
  success_text : Option String
  failure_texts : List (PyKey × String)
deriving Repr, DecidableEq

/-- The stub content block `get_themed_content` falls back to when even the
fantasy theme is absent. -/
def stubContent : ThemedContent :=
  { title := some "SCENARIO"
    narrative := some ""
    choices := []
    success_text := some ""
    failure_texts := [] }

/-- The `Scenario` class.  `failure_text` is the scenario-level generic
fallback (that is its attribute name in the source); `themes` maps theme
keys to content blocks. -/
structure Scenario where
  id : String
  domain : Int
  xp_reward : Int
  hp_penalty : Int
  correct_index : Int
  failure_text : String
  domain_reference : String
  themes : List (String × ThemedContent)
deriving Repr, DecidableEq

/-- `Scenario.get_themed_content(theme)`: the requested theme's block,
falling back to the fantasy block, then to the stub. -/
def Scenario.get_themed_content (s : Scenario) (theme : String) : ThemedContent :=
  match s.themes.lookup theme with
  | some content => content
  | none => (s.themes.lookup "fantasy").getD stubContent

/-- The two dictionary probes of `get_failure_text`:
`chosen_index in failure_texts` and then `str(chosen_index) in
failure_texts`.  The game always passes a 0-based non-negative index
(`result[1] - 1`), so the index is a `Nat`. -/
def lookupFailureTexts (fts : List (PyKey × String)) (chosen_index : Nat) :
    Option String :=
  match fts.lookup (PyKey.int (chosen_index : Int)) with
  | some t => some t
  | none => fts.lookup (PyKey.str (toString chosen_index))

/-- `Scenario.get_failure_text(theme, chosen_index)`: theme-specific
failure text, else a truthy per-choice `failure_reason`, else the generic
scenario-level `failure_text`. -/
def Scenario.get_failure_text (s : Scenario) (theme : String)
    (chosen_index : Nat) : String :=
  let content := s.get_themed_content theme
  match lookupFailureTexts content.failure_texts chosen_index with
  | some t => t
  | none =>
    let choices := content.choices
    if chosen_index < choices.length then
      match (choices.get? chosen_index).bind ChoiceEntry.truthyFailureReason with
      | some r => r
      | none => s.failure_text
    else s.failure_text

/-! ## ThemeManager (engine/theme_manager.py) -/

/-- The per-theme metadata dict built by `_load_themes_from_config` (or the
built-in defaults). -/
structure ThemeInfo where
  display_name : String
  short_name : String
  description : String
  game_title : String
  player_term : String
  narrator : String
  victory_message : String
deriving Repr, DecidableEq

/-- Python list indexing `l[i]`: negative indices count from the end;
anything out of `[-len, len)` raises, modelled as `none`. -/
def pyGet {α : Type} (l : List α) (i : Int) : Option α :=
  if 0 ≤ i then l.get? i.toNat
  else if -(l.length : Int) ≤ i then l.get? (i + l.length).toNat
  else none

/-- The `ThemeManager`: an ordered dict of themes, the key order, and the
index of the current selection. -/
structure ThemeManager where
  themes : List (String × ThemeInfo)
  theme_keys : List String
  current_index : Int
deriving Repr, DecidableEq

/-- `current_theme_key`: `"fantasy"` when there are no keys, otherwise
`self.theme_keys[self.current_index]` (which raises on an invalid index,
hence the `Option`). -/
def ThemeManager.current_theme_key (tm : ThemeManager) : Option String :=
  if tm.theme_keys = [] then some "fantasy"
  else pyGet tm.theme_keys tm.current_index

/-- The `theme_count` property. -/
def ThemeManager.theme_count (tm : ThemeManager) : Nat := tm.theme_keys.length

/-- `set_theme_by_key(theme_key)`: select by key; `False` and no state
change when the key is unknown. -/
def ThemeManager.set_theme_by_key (tm : ThemeManager) (theme_key : String) :
    ThemeManager × Bool :=
  if theme_key ∈ tm.theme_keys then
    ({ tm with current_index := (tm.theme_keys.indexOf theme_key : Int) }, true)
  else (tm, false)

/-- `set_theme_by_index(index)`: select by 0-based index; `False` and no
state change when out of range. -/
def ThemeManager.set_theme_by_index (tm : ThemeManager) (index : Int) :
    ThemeManager × Bool :=
  if 0 ≤ index ∧ index < (tm.theme_keys.length : Int) then
    ({ tm with current_index := index }, true)
  else (tm, false)

/-- `toggle_theme()`: advance `current_index` cyclically (Python `%` on a
positive modulus agrees with `Int.emod`) and return the new current key. -/
def ThemeManager.toggle_theme (tm : ThemeManager) : ThemeManager × Option String :=
  let tm1 :=
    if tm.theme_keys = [] then tm
    else { tm with current_index := (tm.current_index + 1) % (tm.theme_keys.length : Int) }
  (tm1, tm1.current_theme_key)

/-- `n` successive `toggle_theme()` calls. -/
def ThemeManager.toggle_iter (tm : ThemeManager) : Nat → ThemeManager
  | 0 => tm
  | n + 1 => ((tm.toggle_iter n).toggle_theme).1

/-! ## Game._select_starting_domain (engine/game.py) -/

/-- The state update `_select_starting_domain` performs once a numeric
choice `domain` has been validated (`1 <= domain <= self.domain_count`):
set `current_domain`, and when the player jumps past domain 1, assign the
skipped-domains xp credit.  `spd` is `scenarios_per_domain` and `xpc` is
`scoring.get('xp_per_correct', 50)`. -/
def applyStartingDomain (p : Player) (spd xpc : Int) (domain : Int) : Player :=
  let p1 := { p with current_domain := domain }
  if 1 < domain then
    let xp_per_domain := spd * xpc
    let skipped_domains := domain - 1
    let skipped_xp := skipped_domains * xp_per_domain
    { p1 with xp := skipped_xp }
  else p1

/-! ## Concrete sample data for witnesses and counterexamples -/

/-- A sample player with the given hp, max_hp and xp and otherwise fresh
state (as built by `Player.from_certification` defaults). -/
def mkPlayer (hp max_hp xp : Int) : Player :=
  { name := "Tester"
    hp := hp
    max_hp := max_hp
    xp := xp
    current_domain := 1
    scenarios_completed := []
    wrong_answers := 0
    correct_answers := 0
    domain_stats := [(1, ⟨0, 0⟩), (2, ⟨0, 0⟩)]
    _domain_count := 2
    _titles := []
    _max_xp := 1000 }

/-- The spec's two-entry threshold table `[{0,"Novice"},{100,"Adept"}]`. -/
def twoTitles : List TitleDef :=
  [ { threshold := some 0, fantasy := some "Novice", title := none }
  , { threshold := some 100, fantasy := some "Adept", title := none } ]

/-- A fresh player carrying the `twoTitles` table. -/
def titledPlayer : Player := { mkPlayer 100 100 0 with _titles := twoTitles }

/-- A scenario whose fantasy block has no `failure_texts` entries and one
choice dict whose `failure_reason` is present but empty, with generic
fallback `"G"`. -/
def emptyReasonScenario : Scenario :=
  { id := "s1"
    domain := 1
    xp_reward := 50
    hp_penalty := 20
    correct_index := 0
    failure_text := "G"
    domain_reference := ""
    themes := [("fantasy",
      { title := some "T"
        narrative := some ""
        choices := [ChoiceEntry.dict (some "A") (some "")]
        success_text := some ""
        failure_texts := [] })] }

/-- A scenario with themed content but neither `failure_texts` entries nor
any per-choice failure reason: only the generic fallback is authored. -/
def genericOnlyScenario : Scenario :=
  { id := "s2"
    domain := 1
    xp_reward := 50
    hp_penalty := 20
    correct_index := 0
    failure_text := "G2"
    domain_reference := ""
    themes := [("fantasy",
      { title := some "T"
        narrative := some ""
        choices := [ChoiceEntry.str "A", ChoiceEntry.dict (some "B") none]
        success_text := some ""
        failure_texts := [] })] }

/-- The built-in two-theme default manager. -/
def defaultManager : ThemeManager :=
  { themes :=
      [ ("fantasy", ⟨"Medieval Fantasy", "Fantasy", "", "", "", "", ""⟩)
      , ("corporate", ⟨"Corporate Office", "Corporate", "", "", "", "", ""⟩) ]
    theme_keys := ["fantasy", "corporate"]
    current_index := 0 }

/-! ## C1 — heal -/

/-- C1, counterexample: `heal` is not a no-op returning 0 whenever hp is at
or above max_hp.  With hp = 110 > max_hp = 100, `heal(30)` returns −10 and
lowers hp to 100; with hp = max_hp = 100, `heal(-5)` returns −5 and lowers
hp to 95. -/
theorem C1_heal_noop_counterexample :
    ((mkPlayer 110 100 0).max_hp ≤ (mkPlayer 110 100 0).hp ∧
      ((mkPlayer 110 100 0).heal 30).2 = -10 ∧
      ((mkPlayer 110 100 0).heal 30).1.hp = 100) ∧
    ((mkPlayer 100 100 0).max_hp ≤ (mkPlayer 100 100 0).hp ∧
      ((mkPlayer 100 100 0).heal (-5)).2 = -5 ∧
      ((mkPlayer 100 100 0).heal (-5)).1.hp = 95) := by
  decide

/-- C1, amended: `heal(amount)` returns exactly
`min(max_hp - hp, amount)`, increases hp by exactly that amount, and is a
no-op returning 0 when hp is exactly max_hp and amount is non-negative. -/
theorem C1_heal_spec (p : Player) (amount : Int) :
    (p.heal amount).2 = min (p.max_hp - p.hp) amount ∧
    (p.heal amount).1.hp = p.hp + (p.heal amount).2 ∧
    (p.hp = p.max_hp → 0 ≤ amount →
      (p.heal amount).2 = 0 ∧ (p.heal amount).1 = p) := by
  refine ⟨rfl, rfl, fun h1 h2 => ?_⟩
  have hm : min (p.max_hp - p.hp) amount = 0 := by
    rw [h1, sub_self]
    exact min_eq_left h2
  constructor
  · simpa [Player.heal] using hm
  · simp [Player.heal, hm]

/-- C1, witness: the spec scenario `heal(30)` at hp=90, max_hp=100 heals
10 up to hp=100, and the no-op clause at hp=max_hp=100 with amount 30. -/
theorem C1_heal_spec_witness :
    (((mkPlayer 90 100 0).heal 30).2 = min ((mkPlayer 90 100 0).max_hp - (mkPlayer 90 100 0).hp) 30 ∧
      ((mkPlayer 90 100 0).heal 30).1.hp = (mkPlayer 90 100 0).hp + ((mkPlayer 90 100 0).heal 30).2 ∧
      ((mkPlayer 90 100 0).heal 30).2 = 10 ∧ ((mkPlayer 90 100 0).heal 30).1.hp = 100) ∧
    (((mkPlayer 100 100 0).heal 30).2 = 0 ∧ ((mkPlayer 100 100 0).heal 30).1 = mkPlayer 100 100 0) :=
  ⟨⟨(C1_heal_spec (mkPlayer 90 100 0) 30).1, (C1_heal_spec (mkPlayer 90 100 0) 30).2.1,
    by decide, by decide⟩,
    (C1_heal_spec (mkPlayer 100 100 0) 30).2.2 (by decide) (by decide)⟩

/-! ## C2 — hp cap under heal sequences -/

/-- C2: starting from any player with hp ≤ max_hp, after any finite
sequence of `heal` calls (arbitrary amounts) hp is still at most max_hp,
and max_hp itself is never changed; since every intermediate state is
`healSeq` of a prefix, hp never exceeds max_hp at any point. -/
theorem C2_hp_cap (p : Player) (h : p.hp ≤ p.max_hp) (amounts : List Int) :
    (p.healSeq amounts).hp ≤ p.max_hp ∧ (p.healSeq amounts).max_hp = p.max_hp := by
  induction amounts generalizing p with
  | nil => exact ⟨h, rfl⟩
  | cons a rest ih =>
    have h1 : ((p.heal a).1).hp ≤ ((p.heal a).1).max_hp := by
      show p.hp + min (p.max_hp - p.hp) a ≤ p.max_hp
      have hmin := min_le_left (p.max_hp - p.hp) a
      omega
    have h2 : ((p.heal a).1).max_hp = p.max_hp := rfl
    have := ih (p.heal a).1 h1
    constructor
    · calc (p.healSeq (a :: rest)).hp = (((p.heal a).1).healSeq rest).hp := rfl
        _ ≤ ((p.heal a).1).max_hp := this.1
        _ = p.max_hp := h2
    · calc (p.healSeq (a :: rest)).max_hp = (((p.heal a).1).healSeq rest).max_hp := rfl
        _ = ((p.heal a).1).max_hp := this.2
        _ = p.max_hp := h2

/-- C2, witness: a concrete heal sequence from hp=50 never overshoots
max_hp=100. -/
theorem C2_hp_cap_witness :
    ((mkPlayer 50 100 0).healSeq [30, 40, 25, -7, 99]).hp ≤ 100 ∧
    ((mkPlayer 50 100 0).healSeq [30, 40, 25, -7, 99]).max_hp = 100 :=
  C2_hp_cap (mkPlayer 50 100 0) (by decide) [30, 40, 25, -7, 99]

/-! ## C5 — starting-domain jump xp -/

/-- C5: choosing a starting domain greater than 1 at session start sets
`current_domain` to the target and assigns
`xp = (target − 1) × scenarios_per_domain × xp_per_correct`; in
particular jumping to domain 3 with scenarios_per_domain=10 and
xp_per_correct=50 yields xp = 1000. -/
theorem C5_starting_domain_jump (p : Player) (spd xpc domain : Int)
    (h : 1 < domain) :
    (applyStartingDomain p spd xpc domain).xp = (domain - 1) * spd * xpc ∧
    (applyStartingDomain p spd xpc domain).current_domain = domain ∧
    (applyStartingDomain (mkPlayer 100 100 0) 10 50 3).xp = 1000 := by
  refine ⟨?_, ?_, by decide⟩
  · simp [applyStartingDomain, if_pos h, mul_assoc]
  · simp [applyStartingDomain]
    split <;> rfl

/-- C5, witness: the spec scenario, jump from domain 1 to domain 3. -/
theorem C5_starting_domain_jump_witness :
    (applyStartingDomain (mkPlayer 100 100 0) 10 50 3).xp = ((3 : Int) - 1) * 10 * 50 ∧
    (applyStartingDomain (mkPlayer 100 100 0) 10 50 3).current_domain = 3 ∧
    (applyStartingDomain (mkPlayer 100 100 0) 10 50 3).xp = 1000 :=
  C5_starting_domain_jump (mkPlayer 100 100 0) 10 50 3 (by decide)

/-! ## C9 — completion idempotence -/

/-- C9: a second `complete_scenario(id)` call changes nothing, and when the
completed list held at most one occurrence of `id` (duplicates are
forbidden by the data model), two calls leave exactly one occurrence. -/
theorem C9_complete_scenario_idempotent (p : Player) (sid : String)
    (h : p.scenarios_completed.count sid ≤ 1) :
    (p.complete_scenario sid).complete_scenario sid = p.complete_scenario sid ∧
    ((p.complete_scenario sid).complete_scenario sid).scenarios_completed.count sid = 1 := by
  by_cases hmem : sid ∈ p.scenarios_completed
  · have hfix : p.complete_scenario sid = p := by
      simp [Player.complete_scenario, hmem]
    refine ⟨by rw [hfix, hfix], ?_⟩
    rw [hfix, hfix]
    have hpos : 0 < p.scenarios_completed.count sid := List.count_pos_iff.mpr hmem
    omega
  · have happ : p.complete_scenario sid =
        { p with scenarios_completed := p.scenarios_completed ++ [sid] } := by
      simp [Player.complete_scenario, hmem]
    have hmem2 : sid ∈ p.scenarios_completed ++ [sid] := by simp
    have hfix2 : (p.complete_scenario sid).complete_scenario sid = p.complete_scenario sid := by
      rw [happ]
      simp [Player.complete_scenario, hmem2]
    refine ⟨hfix2, ?_⟩
    rw [hfix2, happ]
    have hzero : p.scenarios_completed.count sid = 0 := List.count_eq_zero.mpr hmem
    simp [List.count_append, hzero]

/-- C9, witness: completing scenario "a1" twice on a fresh player leaves
one occurrence, and the second call is the identity. -/
theorem C9_complete_scenario_idempotent_witness :
    ((mkPlayer 100 100 0).complete_scenario "a1").complete_scenario "a1" =
      (mkPlayer 100 100 0).complete_scenario "a1" ∧
    (((mkPlayer 100 100 0).complete_scenario "a1").complete_scenario "a1").scenarios_completed.count "a1" = 1 :=
  C9_complete_scenario_idempotent (mkPlayer 100 100 0) "a1" (by decide)

/-! ## C10 — untracked domain argument is a pure frame condition -/

/-- C10: with a domain argument that is `None`, `0`, or not a key of
`domain_stats`, `take_damage` and `gain_xp` still perform the hp/xp update
and counter increment, leave `domain_stats` (and every other field)
unchanged, and are total (the model returns normally on all inputs). -/
theorem C10_untracked_domain_frame (p : Player) (amount : Int) (domain : Option Int)
    (h : domain = none ∨ domain = some 0 ∨
      ∃ d, domain = some d ∧ p.domain_stats.lookup d = none) :
    p.take_damage amount domain =
      ({ p with hp := p.hp - amount, wrong_answers := p.wrong_answers + 1 }, amount) ∧
    (p.gain_xp amount domain).1 =
      { p with xp := p.xp + amount, correct_answers := p.correct_answers + 1 } := by
  have hguard : domainTracked domain p.domain_stats = false := by
    rcases h with h | h | ⟨d, hd, hl⟩
    · simp [h, domainTracked]
    · simp [h, domainTracked]
    · subst hd
      by_cases hz : d = 0 <;> simp [domainTracked, hz, hl]
  constructor
  · simp [Player.take_damage, hguard]
  · simp [Player.gain_xp, hguard]

/-- C10, witness: `take_damage(20, None)` and `gain_xp(50, None)` on a
fresh player update only hp/xp and the counters. -/
theorem C10_untracked_domain_frame_witness :
    (mkPlayer 100 100 0).take_damage 20 none =
      ({ mkPlayer 100 100 0 with
          hp := (mkPlayer 100 100 0).hp - 20
          wrong_answers := (mkPlayer 100 100 0).wrong_answers + 1 }, 20) ∧
    ((mkPlayer 100 100 0).gain_xp 50 none).1 =
      { mkPlayer 100 100 0 with
          xp := (mkPlayer 100 100 0).xp + 50
          correct_answers := (mkPlayer 100 100 0).correct_answers + 1 } :=
  ⟨(C10_untracked_domain_frame (mkPlayer 100 100 0) 20 none (Or.inl rfl)).1,
    (C10_untracked_domain_frame (mkPlayer 100 100 0) 50 none (Or.inl rfl)).2⟩

/-! ## C3 — gain_xp with a tracked domain -/

/-- Looking up the bumped key after `bumpCorrect` yields the old counters
with `correct` incremented. -/
theorem lookup_bumpCorrect (stats : List (Int × DomainStat)) (d : Int) :
    (bumpCorrect stats d).lookup d =
      (stats.lookup d).map (fun s => { s with correct := s.correct + 1 }) := by
  induction stats with
  | nil => rfl
  | cons kv rest ih =>
    rcases kv with ⟨k, v⟩
    by_cases h : k = d
    · subst h
      simp [bumpCorrect, List.lookup_cons]
    · have hne : (d == k) = false := beq_eq_false_iff_ne.mpr (Ne.symm h)
      simp [bumpCorrect, List.lookup_cons, h, hne] at ih ⊢
      exact ih

/-- C3: `gain_xp(amount, domain)` with a domain tracked in `domain_stats`
(domain ids are 1-based, hence nonzero) adds `amount` to xp, increments
`correct_answers` and the domain's `correct` counter, and returns `true`
exactly when the title derived from xp before the call differs from the
title derived from xp after; in particular on the spec's two-threshold
table, `gain_xp(100, domain=1)` at xp=0 moves the title from "Novice" to
"Adept" and returns `true`. -/
theorem C3_gain_xp_tracked (p : Player) (amount : Int) (d : Int) (s : DomainStat)
    (hd : d ≠ 0) (hs : p.domain_stats.lookup d = some s) :
    ((p.gain_xp amount (some d)).1.xp = p.xp + amount) ∧
    ((p.gain_xp amount (some d)).1.correct_answers = p.correct_answers + 1) ∧
    ((p.gain_xp amount (some d)).1.domain_stats.lookup d =
      some { s with correct := s.correct + 1 }) ∧
    ((p.gain_xp amount (some d)).2 = true ↔
      computeTitle p._titles p.xp ≠ computeTitle p._titles (p.xp + amount)) ∧
    ((titledPlayer.gain_xp 100 (some 1)).2 = true ∧
      titledPlayer.title = "Novice" ∧
      (titledPlayer.gain_xp 100 (some 1)).1.title = "Adept") := by
  have hguard : domainTracked (some d) p.domain_stats = true := by
    simp [domainTracked, hd, hs]
  refine ⟨?_, ?_, ?_, ?_, by decide, by decide, by decide⟩
  · simp [Player.gain_xp, hguard]
  · simp [Player.gain_xp, hguard]
  · simp [Player.gain_xp, hguard, lookup_bumpCorrect, hs]
  · simp [Player.gain_xp, hguard, Player.title]

/-- C3, witness: the theorem applied to the spec scenario's player
(xp=0, thresholds `[{0,"Novice"},{100,"Adept"}]`, domain 1 tracked). -/
theorem C3_gain_xp_tracked_witness :
    ((titledPlayer.gain_xp 100 (some 1)).1.xp = titledPlayer.xp + 100) ∧
    ((titledPlayer.gain_xp 100 (some 1)).1.correct_answers =
      titledPlayer.correct_answers + 1) ∧
    ((titledPlayer.gain_xp 100 (some 1)).1.domain_stats.lookup 1 =
      some { correct := (0 : Int) + 1, wrong := 0 }) ∧
    ((titledPlayer.gain_xp 100 (some 1)).2 = true ↔
      computeTitle titledPlayer._titles titledPlayer.xp ≠
        computeTitle titledPlayer._titles (titledPlayer.xp + 100)) ∧
    ((titledPlayer.gain_xp 100 (some 1)).2 = true ∧
      titledPlayer.title = "Novice" ∧
      (titledPlayer.gain_xp 100 (some 1)).1.title = "Adept") :=
  C3_gain_xp_tracked titledPlayer 100 1 ⟨0, 0⟩ (by decide) (by decide)

/-! ## C7 — invalid theme selection leaves the manager unchanged -/

/-- C7: `set_theme_by_key` with an unknown key and `set_theme_by_index`
with an out-of-range index return `false` and leave the whole manager
(themes, key order, current selection) unchanged; with a known key or an
in-range index they return `true`. -/
theorem C7_set_theme_invalid_unchanged (tm : ThemeManager) :
    (∀ key, key ∉ tm.theme_keys → tm.set_theme_by_key key = (tm, false)) ∧
    (∀ key, key ∈ tm.theme_keys → (tm.set_theme_by_key key).2 = true) ∧
    (∀ i : Int, ¬(0 ≤ i ∧ i < (tm.theme_keys.length : Int)) →
      tm.set_theme_by_index i = (tm, false)) ∧
    (∀ i : Int, 0 ≤ i → i < (tm.theme_keys.length : Int) →
      (tm.set_theme_by_index i).2 = true) := by
  refine ⟨fun key h => ?_, fun key h => ?_, fun i h => ?_, fun i h1 h2 => ?_⟩
  · simp [ThemeManager.set_theme_by_key, h]
  · simp [ThemeManager.set_theme_by_key, h]
  · simp only [ThemeManager.set_theme_by_index, if_neg h]
  · simp [ThemeManager.set_theme_by_index, h1, h2]

/-- C7, witness: on the default two-theme manager, an unknown key and
index 5 fail without touching the state, while "corporate" and index 1
succeed. -/
theorem C7_set_theme_invalid_unchanged_witness :
    defaultManager.set_theme_by_key "western" = (defaultManager, false) ∧
    (defaultManager.set_theme_by_key "corporate").2 = true ∧
    defaultManager.set_theme_by_index 5 = (defaultManager, false) ∧
    (defaultManager.set_theme_by_index 1).2 = true :=
  ⟨(C7_set_theme_invalid_unchanged defaultManager).1 "western" (by decide),
    (C7_set_theme_invalid_unchanged defaultManager).2.1 "corporate" (by decide),
    (C7_set_theme_invalid_unchanged defaultManager).2.2.1 5 (by decide),
    (C7_set_theme_invalid_unchanged defaultManager).2.2.2 1 (by decide) (by decide)⟩

/-! ## C6 — theme toggling cycles through the key order -/

/-- After `n ≥ 1` toggles the themes and key order are untouched and the
current index has advanced by `n` modulo the number of themes. -/
theorem toggle_iter_spec (tm : ThemeManager) (hne : tm.theme_keys ≠ []) :
    ∀ n : Nat, 1 ≤ n →
      (tm.toggle_iter n).themes = tm.themes ∧
      (tm.toggle_iter n).theme_keys = tm.theme_keys ∧
      (tm.toggle_iter n).current_index =
        (tm.current_index + n) % (tm.theme_keys.length : Int) := by
  intro n
  induction n with
  | zero => omega
  | succ n ih =>
    intro _
    by_cases hn : 1 ≤ n
    · obtain ⟨h1, h2, h3⟩ := ih hn
      have hne2 : (tm.toggle_iter n).theme_keys ≠ [] := by rw [h2]; exact hne
      refine ⟨?_, ?_, ?_⟩
      · show ((tm.toggle_iter n).toggle_theme).1.themes = tm.themes
        simp [ThemeManager.toggle_theme, hne2, hne, h1, h2]
      · show ((tm.toggle_iter n).toggle_theme).1.theme_keys = tm.theme_keys
        simp [ThemeManager.toggle_theme, hne2, hne, h2]
      · show ((tm.toggle_iter n).toggle_theme).1.current_index =
          (tm.current_index + (n + 1 : Nat)) % (tm.theme_keys.length : Int)
        simp [ThemeManager.toggle_theme, hne2, hne, h2, h3, Int.emod_add_emod, add_assoc]
    · have hn0 : n = 0 := by omega
      subst hn0
      refine ⟨?_, ?_, ?_⟩
      · show (tm.toggle_theme).1.themes = tm.themes
        simp [ThemeManager.toggle_theme, hne]
      · show (tm.toggle_theme).1.theme_keys = tm.theme_keys
        simp [ThemeManager.toggle_theme, hne]
      · show (tm.toggle_theme).1.current_index =
          (tm.current_index + (1 : Nat)) % (tm.theme_keys.length : Int)
        simp [ThemeManager.toggle_theme, hne]

/-- C6: with a valid current index, a single `toggle_theme` returns the
next key in declaration order with wrap-around, and `theme_count`
successive toggles return the manager to its original current key. -/
theorem C6_toggle_cycle (tm : ThemeManager)
    (h0 : 0 ≤ tm.current_index)
    (h1 : tm.current_index < (tm.theme_keys.length : Int)) :
    (tm.toggle_theme).2 =
      pyGet tm.theme_keys ((tm.current_index + 1) % (tm.theme_keys.length : Int)) ∧
    (tm.toggle_iter tm.theme_count).current_theme_key = tm.current_theme_key := by
  have hne : tm.theme_keys ≠ [] := by
    intro h
    rw [h] at h1
    simp at h1
    omega
  have hlen : 1 ≤ tm.theme_keys.length := List.length_pos.mpr hne
  obtain ⟨ht, hk, hi⟩ := toggle_iter_spec tm hne tm.theme_count hlen
  constructor
  · simp [ThemeManager.toggle_theme, ThemeManager.current_theme_key, hne]
  · have hmod : (tm.current_index + ((tm.theme_count : Nat) : Int)) %
        (tm.theme_keys.length : Int) = tm.current_index := by
      show (tm.current_index + (tm.theme_keys.length : Int)) %
        (tm.theme_keys.length : Int) = tm.current_index
      have hself := @Int.add_mul_emod_self_left tm.current_index
        (tm.theme_keys.length : Int) 1
      rw [mul_one] at hself
      rw [hself]
      exact Int.emod_eq_of_lt h0 h1
    simp [ThemeManager.current_theme_key, hne, hk, hi, hmod]

/-- C6, witness: the theorem applied to the default two-theme manager. -/
theorem C6_toggle_cycle_witness :
    (defaultManager.toggle_theme).2 =
      pyGet defaultManager.theme_keys
        ((defaultManager.current_index + 1) % (defaultManager.theme_keys.length : Int)) ∧
    (defaultManager.toggle_iter defaultManager.theme_count).current_theme_key =
      defaultManager.current_theme_key :=
  C6_toggle_cycle defaultManager (by decide) (by decide)

/-! ## C8 — title monotonicity -/

/-- Every threshold recorded by the selection scan is at most the xp it
was scanned against. -/
theorem selFold_le (xp : Int) (L : List TitleDef) :
    ∀ a : Option Int, (∀ t, a = some t → t ≤ xp) →
      ∀ t, L.foldl (fun cur td => if td.thresholdD ≤ xp then some td.thresholdD else cur) a
          = some t → t ≤ xp := by
  induction L with
  | nil =>
    intro a ha t ht
    exact ha t ht
  | cons td rest ih =>
    intro a ha t ht
    simp only [List.foldl_cons] at ht
    refine ih _ ?_ t ht
    intro t' h'
    by_cases hc : td.thresholdD ≤ xp
    · rw [if_pos hc] at h'
      injection h' with h''
      omega
    · rw [if_neg hc] at h'
      exact ha t' h'

/-- The selection scan started from a recorded entry always ends on a
recorded entry. -/
theorem selFold_isSome (xp : Int) (L : List TitleDef) :
    ∀ t : Int,
      (L.foldl (fun cur td => if td.thresholdD ≤ xp then some td.thresholdD else cur)
        (some t)).isSome := by
  induction L with
  | nil =>
    intro t
    rfl
  | cons td rest ih =>
    intro t
    simp only [List.foldl_cons]
    by_cases hc : td.thresholdD ≤ xp
    · rw [if_pos hc]
      exact ih _
    · rw [if_neg hc]
      exact ih t

/-- Monotonicity of the selection scan: raising xp can only raise the
selected threshold, accumulator-generalised. -/
theorem selFold_mono (xp1 xp2 : Int) (hx : xp1 ≤ xp2) (L : List TitleDef) :
    ∀ a b : Option Int, (∀ t, a = some t → t ≤ xp1) →
      (∀ t1, a = some t1 → ∃ t2, b = some t2 ∧ t1 ≤ t2) →
      ∀ t1,
        L.foldl (fun cur td => if td.thresholdD ≤ xp1 then some td.thresholdD else cur) a
          = some t1 →
        ∃ t2,
          L.foldl (fun cur td => if td.thresholdD ≤ xp2 then some td.thresholdD else cur) b
            = some t2 ∧ t1 ≤ t2 := by
  induction L with
  | nil =>
    intro a b ha hab t1 h1
    exact hab t1 h1
  | cons td rest ih =>
    intro a b ha hab t1 h1
    simp only [List.foldl_cons] at h1 ⊢
    by_cases hc1 : td.thresholdD ≤ xp1
    · have hc2 : td.thresholdD ≤ xp2 := le_trans hc1 hx
      rw [if_pos hc1] at h1
      rw [if_pos hc2]
      refine ih (some td.thresholdD) (some td.thresholdD) ?_ ?_ t1 h1
      · intro t ht
        injection ht with h''
        omega
      · intro t ht
        injection ht with h''
        exact ⟨td.thresholdD, rfl, by omega⟩
    · rw [if_neg hc1] at h1
      by_cases hc2 : td.thresholdD ≤ xp2
      · rw [if_pos hc2]
        refine ih a (some td.thresholdD) ha ?_ t1 h1
        intro t ht
        have h3 := ha t ht
        exact ⟨td.thresholdD, rfl, by omega⟩
      · rw [if_neg hc2]
        exact ih a b ha hab t1 h1

/-- When the selection scan records nothing, the title scan keeps its
starting value. -/
theorem selFold_none_title (xp : Int) (L : List TitleDef) :
    ∀ (o : Option Int) (s : String),
      L.foldl (fun cur td => if td.thresholdD ≤ xp then some td.thresholdD else cur) o
        = none →
      L.foldl (fun cur td => if td.thresholdD ≤ xp then td.displayName else cur) s = s := by
  induction L with
  | nil =>
    intro o s _
    rfl
  | cons td rest ih =>
    intro o s h
    simp only [List.foldl_cons] at h ⊢
    by_cases hc : td.thresholdD ≤ xp
    · rw [if_pos hc] at h
      have hsome := selFold_isSome xp rest td.thresholdD
      rw [h] at hsome
      simp at hsome
    · rw [if_neg hc] at h
      rw [if_neg hc]
      exact ih o s h

/-- C8: for a fixed threshold table the selected entry's threshold is a
monotone function of xp (when xp1 ≤ xp2, the entry selected for xp1 has a
threshold at most that of the entry selected for xp2), and when no entry
is selected the derived title is the "Novice" default. -/
theorem C8_title_monotone (titles : List TitleDef) (xp1 xp2 : Int) (h : xp1 ≤ xp2) :
    (∀ t1, selectedThreshold titles xp1 = some t1 →
      ∃ t2, selectedThreshold titles xp2 = some t2 ∧ t1 ≤ t2) ∧
    (∀ xp : Int, selectedThreshold titles xp = none → computeTitle titles xp = "Novice") := by
  constructor
  · intro t1 h1
    exact selFold_mono xp1 xp2 h (sortTitles titles) none none
      (fun t ht => by cases ht) (fun t ht => by cases ht) t1 h1
  · intro xp hnone
    exact selFold_none_title xp (sortTitles titles) none "Novice" hnone

/-- C8, witness: on the two-entry table, xp below every threshold selects
nothing and derives "Novice". -/
theorem C8_title_monotone_witness : computeTitle twoTitles (-5) = "Novice" :=
  (C8_title_monotone twoTitles (-5) 0 (by decide)).2 (-5) (by decide)

/-! ## C4 — failure-text resolution order -/

/-- A successful association-list lookup returns a stored pair. -/
theorem lookup_mem {α β : Type} [BEq α] [LawfulBEq α]
    (l : List (α × β)) (k : α) (v : β) (h : l.lookup k = some v) : (k, v) ∈ l := by
  induction l with
  | nil => cases h
  | cons kv rest ih =>
    rcases kv with ⟨k', v'⟩
    rw [List.lookup_cons] at h
    split at h
    · next heq =>
      have hk : k = k' := eq_of_beq heq
      subst hk
      injection h with hv
      subst hv
      exact List.mem_cons_self _ _
    · exact List.mem_cons_of_mem _ (ih h)

/-- The content block `get_themed_content` resolves to is either one of
the scenario's stored theme blocks or the stub. -/
theorem get_themed_content_cases (s : Scenario) (theme : String) :
    (∃ k, (k, s.get_themed_content theme) ∈ s.themes) ∨
      s.get_themed_content theme = stubContent := by
  cases h1 : s.themes.lookup theme with
  | some c =>
    refine Or.inl ⟨theme, ?_⟩
    have hm := lookup_mem _ _ _ h1
    simpa [Scenario.get_themed_content, h1] using hm
  | none =>
    cases h2 : s.themes.lookup "fantasy" with
    | some c =>
      refine Or.inl ⟨"fantasy", ?_⟩
      have hm := lookup_mem _ _ _ h2
      simpa [Scenario.get_themed_content, h1, h2] using hm
    | none =>
      exact Or.inr (by simp [Scenario.get_themed_content, h1, h2])

/-- C4, counterexample: in a scenario whose fantasy block has no
`failure_texts` entry for index 0 but whose choice 0 carries a *present*
(empty-string) `failure_reason` field, `get_failure_text` skips the
present field and returns the generic text "G" instead of "". -/
theorem C4_failure_text_counterexample :
    lookupFailureTexts ((emptyReasonScenario.get_themed_content "fantasy").failure_texts) 0
      = none ∧
    (emptyReasonScenario.get_themed_content "fantasy").choices.get? 0 =
      some (ChoiceEntry.dict (some "A") (some "")) ∧
    emptyReasonScenario.get_failure_text "fantasy" 0 = "G" ∧
    ("G" : String) ≠ "" := by
  refine ⟨rfl, rfl, rfl, by decide⟩

/-- C4, amended: `get_failure_text` resolves in this order — (1) the
theme's `failure_texts` entry for the chosen index if present, else
(2) the chosen choice entry's `failure_reason` field if present *and
non-empty* (Python truthiness), else (3) the scenario-level generic text;
consequently a scenario with only a generic failure text — no theme
`failure_texts` entries and no non-empty per-choice failure reasons —
returns the generic text for every theme and every index. -/
theorem C4_failure_text_chain (s : Scenario) (theme : String) (i : Nat) :
    (∀ t, lookupFailureTexts (s.get_themed_content theme).failure_texts i = some t →
      s.get_failure_text theme i = t) ∧
    (lookupFailureTexts (s.get_themed_content theme).failure_texts i = none →
      ∀ r, ((s.get_themed_content theme).choices.get? i).bind ChoiceEntry.truthyFailureReason
          = some r →
        s.get_failure_text theme i = r) ∧
    (lookupFailureTexts (s.get_themed_content theme).failure_texts i = none →
      ((s.get_themed_content theme).choices.get? i).bind ChoiceEntry.truthyFailureReason
          = none →
      s.get_failure_text theme i = s.failure_text) ∧
    ((∀ k c, (k, c) ∈ s.themes → c.failure_texts = [] ∧
        ∀ ch ∈ c.choices, ch.truthyFailureReason = none) →
      s.get_failure_text theme i = s.failure_text) := by
  have step3 : lookupFailureTexts (s.get_themed_content theme).failure_texts i = none →
      ((s.get_themed_content theme).choices.get? i).bind ChoiceEntry.truthyFailureReason
          = none →
      s.get_failure_text theme i = s.failure_text := by
    intro hn hb
    by_cases hl : i < (s.get_themed_content theme).choices.length
    · have hsome : (s.get_themed_content theme).choices.get? i =
          some ((s.get_themed_content theme).choices[i]) := by
        rw [List.get?_eq_getElem?]
        exact List.getElem?_eq_getElem hl
      rw [hsome, Option.some_bind] at hb
      simp [Scenario.get_failure_text, hn, hl, hb]
    · simp [Scenario.get_failure_text, hn, hl]
  refine ⟨?_, ?_, step3, ?_⟩
  · intro t ht
    simp [Scenario.get_failure_text, ht]
  · intro hn r hr
    obtain ⟨ch, hch, _⟩ := Option.bind_eq_some.mp hr
    have hl : i < (s.get_themed_content theme).choices.length :=
      (List.get?_eq_some.mp hch).1
    have hsome : (s.get_themed_content theme).choices.get? i =
        some ((s.get_themed_content theme).choices[i]) := by
      rw [List.get?_eq_getElem?]
      exact List.getElem?_eq_getElem hl
    rw [hsome, Option.some_bind] at hr
    simp [Scenario.get_failure_text, hn, hl, hr]
  · intro hall
    have hcontent : (s.get_themed_content theme).failure_texts = [] ∧
        ∀ ch ∈ (s.get_themed_content theme).choices, ch.truthyFailureReason = none := by
      rcases get_themed_content_cases s theme with ⟨k, hmem⟩ | hstub
      · exact hall k _ hmem
      · rw [hstub]
        exact ⟨rfl, by intro ch hch; cases hch⟩
    apply step3
    · rw [hcontent.1]
      rfl
    · cases hch : (s.get_themed_content theme).choices.get? i with
      | none => rfl
      | some ch =>
        have : ch ∈ (s.get_themed_content theme).choices := List.get?_mem hch
        simp [hcontent.2 ch this]

/-- C4, witness: the fallback-chain consequence on a scenario that has
only a generic failure text, at an unknown theme and an out-of-range
index, and at the fantasy theme with a dict choice lacking a failure
reason. -/
theorem C4_failure_text_chain_witness :
    genericOnlyScenario.get_failure_text "corporate" 7 = "G2" ∧
    genericOnlyScenario.get_failure_text "fantasy" 1 = "G2" := by
  have hall : ∀ k c, (k, c) ∈ genericOnlyScenario.themes → c.failure_texts = [] ∧
      ∀ ch ∈ c.choices, ch.truthyFailureReason = none := by
    intro k c hm
    simp only [genericOnlyScenario, List.mem_singleton, Prod.mk.injEq] at hm
    rcases hm with ⟨_, hc⟩
    subst hc
    refine ⟨rfl, ?_⟩
    intro ch hch
    fin_cases hch <;> rfl
  exact ⟨(C4_failure_text_chain genericOnlyScenario "corporate" 7).2.2.2 hall,
    (C4_failure_text_chain genericOnlyScenario "fantasy" 1).2.2.2 hall⟩

end CertQuest
